import Mathlib

/-!
Verification of the text-cleaning / entity-extraction pipeline and the
regex-based medical fallback of the pdf-analysis-tool repository.

Strings are modelled as `List Char` (Python `str` is a sequence of code
points).  Regular expressions from `src/tools.py` and `src/agents.py` are
embedded as terms of a small regex language `RE` together with a
backtracking matcher that follows the leftmost / greedy semantics of
Python's `re` module.  Python exceptions are modelled with `Except`,
`None`-able values with `Option`, and dictionaries with association lists
(Python dicts preserve insertion order).  Character classes (`\s`, `\w`,
`\d`, `[a-zA-Z]`) are modelled on the code points that actually occur in
the analysed documents; for `\s` the full Python whitespace set is used,
for `\w`, `\d` and case mapping the ASCII fragment.
-/

/-- Python whitespace characters: the set matched by `\s` in `re` and
split on by `str.split()` / removed by `str.strip()`. -/
def isPySpace (c : Char) : Bool :=
  c = ' ' || c = '\t' || c = '\n' || c = '\r' || c = '\x0b' || c = '\x0c' ||
  c = '\x1c' || c = '\x1d' || c = '\x1e' || c = '\x1f' || c = '\x85' || c = '\xa0' ||
  c = '\u1680' || ('\u2000' ≤ c && c ≤ '\u200a') || c = '\u2028' || c = '\u2029' ||
  c = '\u202f' || c = '\u205f' || c = '\u3000'

/-- ASCII fragment of the `\w` class, used for `\b` word boundaries. -/
def isWordChar (c : Char) : Bool :=
  c.isAlpha || c.isDigit || c = '_'

/-- Python `str.strip()` from the left: drop leading whitespace. -/
def lstrip (l : List Char) : List Char :=
  l.dropWhile isPySpace

/-- Python `str.strip()` from the right: drop trailing whitespace. -/
def rstrip (l : List Char) : List Char :=
  ((l.reverse.dropWhile isPySpace)).reverse

/-- Python `str.strip()`: drop leading and trailing whitespace. -/
def strip (l : List Char) : List Char :=
  rstrip (lstrip l)

/-- Helper for `collapseWs`: emit a single space unless one is already at
the front of the accumulated output. -/
def pushSpace (acc : List Char) : List Char :=
  if acc.head? = some ' ' then acc else ' ' :: acc

/-- The substitution `re.sub(r"\s+", " ", text)` of `TextCleaner.clean_text`
(`src/tools.py`): every maximal run of whitespace becomes one space. -/
def collapseWs : List Char → List Char
  | [] => []
  | c :: l => if isPySpace c then pushSpace (collapseWs l) else c :: collapseWs l

/-- The substitution `re.sub(r"\f", " ", text)` of `TextCleaner.clean_text`
(pattern `page_breaks`): every form feed becomes a space. -/
def pageBreakSub (l : List Char) : List Char :=
  l.map (fun c => if c = '\x0c' then ' ' else c)

/-- Length of the part of a whitespace run that the greedy pattern
`\n\s*\n\s*\n+` consumes after its leading newline: the maximal whitespace
prefix cut back to its last newline, accepted when it still holds at least
two newlines (so the whole run holds at least three). -/
def blankLen (rest : List Char) : Option Nat :=
  let w := rest.takeWhile isPySpace
  let m := (w.reverse.dropWhile (fun c => c != '\n')).reverse
  if 2 ≤ m.count '\n' then some m.length else none

/-- The substitution `re.sub(r"\n\s*\n\s*\n+", "\n\n", text)` of
`TextCleaner.clean_text`: a leftmost scan that rewrites each whitespace run
containing at least three newlines, from its first through its last
newline, to exactly two newlines. -/
def subBlank : List Char → List Char
  | [] => []
  | c :: rest =>
    if c = '\n' then
      match blankLen rest with
      | some n => '\n' :: '\n' :: subBlank (rest.drop n)
      | none => c :: subBlank rest
    else c :: subBlank rest
termination_by l => l.length
decreasing_by
  · simp only [List.length_drop, List.length_cons]; omega
  · simp only [List.length_cons]; omega
  · simp only [List.length_cons]; omega

/-- `TextCleaner.clean_text` (`src/tools.py`).  The call
`unicodedata.normalize("NFKD", text)` is the parameter `nfkd`; the
remaining steps follow the source order: page-break removal, whitespace
collapsing, blank-line collapsing, strip.  Empty input short-circuits to
the empty string. -/
def clean_text (nfkd : List Char → List Char) (text : List Char) : List Char :=
  if text = [] then []
  else strip (subBlank (collapseWs (pageBreakSub (nfkd text))))

/-- Python `text.split()` (no argument): whitespace-delimited tokens,
empty tokens discarded.  Accumulator holds the current word reversed. -/
def splitWsAux : List Char → List Char → List (List Char)
  | acc, [] => if acc = [] then [] else [acc.reverse]
  | acc, c :: rest =>
    if isPySpace c then
      if acc = [] then splitWsAux [] rest else acc.reverse :: splitWsAux [] rest
    else splitWsAux (c :: acc) rest

/-- Python `text.split()`. -/
def pyWords (l : List Char) : List (List Char) :=
  splitWsAux [] l

/-- Sentence separator class `[.!?]` of `re.split(r"[.!?]+", text)`. -/
def isSentSep (c : Char) : Bool :=
  c = '.' || c = '!' || c = '?'

/-- `re.split(r"[.!?]+", text)`: segments between maximal runs of sentence
separators, empty segments kept (as Python does).  Processes from the
right; the flag records whether the remaining text starts with a
separator, so a run of separators yields a single boundary. -/
def splitSentF : List Char → (List (List Char) × Bool)
  | [] => ([[]], false)
  | c :: rest =>
    let (acc, sepNext) := splitSentF rest
    if isSentSep c then
      if sepNext then (acc, true) else ([] :: acc, true)
    else
      ((match acc with
        | [] => [[c]]
        | s :: ss => (c :: s) :: ss), false)

/-- `re.split(r"[.!?]+", text)`. -/
def splitSent (l : List Char) : List (List Char) :=
  (splitSentF l).1

/-- Python `text.split("\n\n")`: split on each non-overlapping occurrence
of two consecutive newlines, scanning left to right. -/
def splitOnNN : List Char → List (List Char)
  | [] => [[]]
  | [c] => [[c]]
  | c :: d :: rest =>
    if c = '\n' ∧ d = '\n' then [] :: splitOnNN rest
    else
      match splitOnNN (d :: rest) with
      | [] => [[c]]
      | s :: ss => (c :: s) :: ss

/-- Word count of `TextCleaner.get_text_statistics`: `len(text.split())`. -/
def word_count_of (t : List Char) : Nat :=
  (pyWords t).length

/-- Sentence count of `get_text_statistics`: non-empty segments of the
`[.!?]+` split (`len([s for s in sentences if s.strip()])`). -/
def sentence_count_of (t : List Char) : Nat :=
  ((splitSent t).filter (fun s => strip s ≠ [])).length

/-- Paragraph count of `get_text_statistics`: non-empty segments of the
blank-line split (`len([p for p in paragraphs if p.strip()])`). -/
def paragraph_count_of (t : List Char) : Nat :=
  ((splitOnNN t).filter (fun p => strip p ≠ [])).length

/-- The record returned by `TextCleaner.get_text_statistics` for non-empty
input.  Python float division is modelled with exact rationals; the claims
compare the defining formulas, which the rational model reflects
faithfully. -/
structure TextStats where
  character_count : Nat
  word_count : Nat
  sentence_count : Nat
  paragraph_count : Nat
  average_words_per_sentence : Rat
  reading_time_minutes : Rat
deriving DecidableEq, Repr

/-- `TextCleaner.get_text_statistics` (`src/tools.py`).  Empty (falsy)
input returns the empty dictionary, modelled as `none`; otherwise a record
of the six statistics.  Note the average divides by the length of the raw
`re.split` result (`max(len(sentences), 1)`), which counts empty segments
as well. -/
def get_text_statistics (t : List Char) : Option TextStats :=
  if t = [] then none
  else some {
    character_count := t.length
    word_count := word_count_of t
    sentence_count := sentence_count_of t
    paragraph_count := paragraph_count_of t
    average_words_per_sentence :=
      (word_count_of t : Rat) / ((max (splitSent t).length 1 : Nat) : Rat)
    reading_time_minutes := (word_count_of t : Rat) / 200 }

/-- Regex abstract syntax for the patterns of `src/tools.py` and
`src/agents.py`: empty string, single-character class, concatenation,
prioritized alternation, greedy star over a character class, capturing
group, and the word boundary `\b`.  Bounded repetitions are unfolded into
concatenations and alternations when the patterns are transcribed. -/
inductive RE where
  | eps : RE
  | cls : (Char → Bool) → RE
  | seq : RE → RE → RE
  | alt : RE → RE → RE
  | star : (Char → Bool) → RE
  | group : RE → RE
  | wb : RE

/-- Concatenation of a list of regexes. -/
def RE.cat (l : List RE) : RE :=
  l.foldr RE.seq RE.eps

/-- Greedy `?` (prefer matching over skipping, as Python does). -/
def RE.opt (a : RE) : RE :=
  RE.alt a RE.eps

/-- Greedy `+` over a character class. -/
def RE.plus1 (f : Char → Bool) : RE :=
  RE.seq (RE.cls f) (RE.star f)

/-- Successful regex match: the consumed characters in reverse order, the
captured groups in order of completion (our patterns have no nested
groups, so this is also Python group order), and the remaining input. -/
structure RMatch where
  consumedRev : List Char
  groups : List (List Char)
  rest : List Char

/-- The `\b` test: true when exactly one side of the current position is a
word character (`p` is the character before the position, if any). -/
def atBoundary (p : Option Char) (s : List Char) : Bool :=
  (match p with | some c => isWordChar c | none => false) !=
  (match s with | c :: _ => isWordChar c | [] => false)

/-- Greedy star over a character class, in continuation-passing style:
try the longest extension first, backtracking one character at a time.
Arguments of the continuation: previous character, remaining input,
consumed characters (reversed), captured groups. -/
def starC (f : Char → Bool) (p : Option Char) (s : List Char) (cr : List Char)
    (gs : List (List Char))
    (k : Option Char → List Char → List Char → List (List Char) → Option RMatch) :
    Option RMatch :=
  match s with
  | c :: s2 =>
    if f c then (starC f (some c) s2 (c :: cr) gs k).orElse (fun _ => k p s cr gs)
    else k p s cr gs
  | [] => k p s cr gs

/-- Backtracking matcher in continuation-passing style, following Python
`re` semantics: alternation prefers its left branch, star and `?` are
greedy, and the first solution in backtracking order wins. -/
def runC : RE → Option Char → List Char → List Char → List (List Char) →
    (Option Char → List Char → List Char → List (List Char) → Option RMatch) →
    Option RMatch
  | .eps, p, s, cr, gs, k => k p s cr gs
  | .cls f, _, s, cr, gs, k =>
    match s with
    | [] => none
    | c :: s2 => if f c then k (some c) s2 (c :: cr) gs else none
  | .seq a b, p, s, cr, gs, k =>
    runC a p s cr gs (fun p2 s2 cr2 gs2 => runC b p2 s2 cr2 gs2 k)
  | .alt a b, p, s, cr, gs, k =>
    (runC a p s cr gs k).orElse (fun _ => runC b p s cr gs k)
  | .star f, p, s, cr, gs, k => starC f p s cr gs k
  | .group a, p, s, cr, gs, k =>
    runC a p s [] gs (fun p2 s2 crA gs2 => k p2 s2 (crA ++ cr) (gs2 ++ [crA.reverse]))
  | .wb, p, s, cr, gs, k => if atBoundary p s then k p s cr gs else none

/-- Attempt a match of `r` at the current position (`p` = previous
character). -/
def matchAt (r : RE) (p : Option Char) (s : List Char) : Option RMatch :=
  runC r p s [] [] (fun _ s2 cr gs => some ⟨cr, gs, s2⟩)

/-- Scanning loop of `re.findall`: leftmost non-overlapping matches,
returning for each the matched text and its captured groups.  An empty
match is emitted and the scan advances one character, as Python does.  The
fuel is at least the input length plus one, which covers every scan
position. -/
def findallAux (r : RE) : Nat → Option Char → List Char →
    List (List Char × List (List Char))
  | 0, _, _ => []
  | fuel + 1, p, s =>
    match matchAt r p s with
    | some m =>
      match m.consumedRev with
      | [] =>
        match s with
        | [] => [([], m.groups)]
        | c :: s2 => ([], m.groups) :: findallAux r fuel (some c) s2
      | c :: _ => (m.consumedRev.reverse, m.groups) :: findallAux r fuel (some c) m.rest
    | none =>
      match s with
      | [] => []
      | c :: s2 => findallAux r fuel (some c) s2

/-- `re.findall(pattern, s)`, as (matched text, groups) pairs. -/
def findall (r : RE) (s : List Char) : List (List Char × List (List Char)) :=
  findallAux r (s.length + 1) none s

/-- Scanning loop of `re.search`: the leftmost match, if any. -/
def searchAux (r : RE) : Nat → Option Char → List Char → Option RMatch
  | 0, _, _ => none
  | fuel + 1, p, s =>
    match matchAt r p s with
    | some m => some m
    | none =>
      match s with
      | [] => none
      | c :: s2 => searchAux r fuel (some c) s2

/-- `re.search(pattern, s)`. -/
def search (r : RE) (s : List Char) : Option RMatch :=
  searchAux r (s.length + 1) none s

/-- `match.group(1)` after a successful `re.search`. -/
def searchGroup1 (r : RE) (t : List Char) : Option (List Char) :=
  (search r t).bind (fun m => m.groups.head?)

/-- Case-insensitive single character (for patterns compiled with
`re.IGNORECASE`); ASCII case mapping. -/
def ciCh (c : Char) : RE :=
  RE.cls (fun d => d.toLower = c)

/-- Case-insensitive literal word. -/
def ciLit (s : String) : RE :=
  RE.cat (s.toList.map ciCh)

/-- Exact single character. -/
def chLit (c : Char) : RE :=
  RE.cls (fun d => d = c)

/-- `\d{n}`. -/
def digitsRE (n : Nat) : RE :=
  RE.cat (List.replicate n (RE.cls Char.isDigit))

/-- Local-part class `[A-Za-z0-9._%+-]` of the email pattern. -/
def emailLocalCh (c : Char) : Bool :=
  c.isAlpha || c.isDigit || c = '.' || c = '_' || c = '%' || c = '+' || c = '-'

/-- Domain class `[A-Za-z0-9.-]` of the email pattern. -/
def emailDomainCh (c : Char) : Bool :=
  c.isAlpha || c.isDigit || c = '.' || c = '-'

/-- Top-level-domain class `[A-Z|a-z]` of the email pattern — note the
literal `|` inside the class, transcribed faithfully from the source. -/
def emailTldCh (c : Char) : Bool :=
  c.isUpper || c = '|' || c.isLower

/-- Pattern `email` of `TextCleaner` (`src/tools.py`):
`\b[A-Za-z0-9._%+-]+@[A-Za-z0-9.-]+\.[A-Z|a-z]{2,}\b`. -/
def emailRE : RE :=
  RE.cat [RE.wb, RE.plus1 emailLocalCh, chLit '@', RE.plus1 emailDomainCh,
    chLit '.', RE.cls emailTldCh, RE.cls emailTldCh, RE.star emailTldCh, RE.wb]

/-- Separator class `[-.\s]` of the phone pattern. -/
def phoneSepCh (c : Char) : Bool :=
  c = '-' || c = '.' || isPySpace c

/-- Optional country-code part `(?:\+?1[-.\s]?)?` of the phone pattern,
without the outer `?`. -/
def phoneCountry : RE :=
  RE.cat [RE.opt (chLit '+'), chLit '1', RE.opt (RE.cls phoneSepCh)]

/-- Pattern `phone` of `TextCleaner`:
`\b(?:\+?1[-.\s]?)?\(?([0-9]{3})\)?[-.\s]?([0-9]{3})[-.\s]?([0-9]{4})\b`. -/
def phoneRE : RE :=
  RE.cat [RE.wb, RE.opt phoneCountry, RE.opt (chLit '('),
    RE.group (digitsRE 3), RE.opt (chLit ')'), RE.opt (RE.cls phoneSepCh),
    RE.group (digitsRE 3), RE.opt (RE.cls phoneSepCh), RE.group (digitsRE 4), RE.wb]

/-- Date separator class (slash or hyphen) of the date pattern. -/
def dateSep : RE :=
  RE.cls (fun c => c = '/' || c = '-')

/-- Greedy `\d{1,2}`. -/
def rep12 : RE :=
  RE.alt (digitsRE 2) (digitsRE 1)

/-- Greedy `\d{2,4}`. -/
def rep24 : RE :=
  RE.alt (digitsRE 4) (RE.alt (digitsRE 3) (digitsRE 2))

/-- Pattern `date` of `TextCleaner`:
one-or-two digits, separator (slash or hyphen), one-or-two digits,
separator, two-to-four digits, or year-first with four digits, all between
word boundaries, in that alternation order. -/
def dateRE : RE :=
  RE.alt
    (RE.cat [RE.wb, rep12, dateSep, rep12, dateSep, rep24, RE.wb])
    (RE.cat [RE.wb, digitsRE 4, dateSep, rep12, dateSep, rep12, RE.wb])

/-- Currency words `(?:USD|EUR|GBP|dollars?|euros?|pounds?)`, compiled
with `re.IGNORECASE`. -/
def currWord : RE :=
  RE.alt (ciLit "usd") (RE.alt (ciLit "eur") (RE.alt (ciLit "gbp")
    (RE.alt (RE.cat [ciLit "dollar", RE.opt (ciCh 's')])
      (RE.alt (RE.cat [ciLit "euro", RE.opt (ciCh 's')])
        (RE.cat [ciLit "pound", RE.opt (ciCh 's')])))))

/-- Pattern `currency` of `TextCleaner`:
`\$[\d,]+\.?\d*|\b\d+\.?\d*\s*(?:USD|EUR|GBP|dollars?|euros?|pounds?)\b`,
case-insensitive. -/
def currencyRE : RE :=
  RE.alt
    (RE.cat [chLit '$', RE.plus1 (fun c => c.isDigit || c = ','),
      RE.opt (chLit '.'), RE.star Char.isDigit])
    (RE.cat [RE.wb, RE.plus1 Char.isDigit, RE.opt (chLit '.'), RE.star Char.isDigit,
      RE.star isPySpace, currWord, RE.wb])

/-- Keyword tokenizer pattern of `TextCleaner.extract_keywords`:
`\b[a-zA-Z]{3,}\b`. -/
def wordRE : RE :=
  RE.cat [RE.wb, RE.cls Char.isAlpha, RE.cls Char.isAlpha, RE.cls Char.isAlpha,
    RE.star Char.isAlpha, RE.wb]

/-- Order-preserving removal of duplicates: keep an element only when it
has not been seen before.  Models `list(set(x))` (whose iteration order
CPython leaves unspecified; no claim depends on the order) and the key set
of a Python dict built by repeated insertion. -/
def nubFirstAux (seen : List (List Char)) : List (List Char) → List (List Char)
  | [] => []
  | x :: xs => if x ∈ seen then nubFirstAux seen xs else x :: nubFirstAux (x :: seen) xs

/-- Order-preserving removal of duplicates, keeping first occurrences. -/
def nubFirst (l : List (List Char)) : List (List Char) :=
  nubFirstAux [] l

/-- `TextCleaner.extract_structured_data` (`src/tools.py`): a dictionary
with at most four keys, each present only when its pattern matched.
Emails, dates and currency amounts pass through `list(set(...))`;
phone-number group triples are joined with `-` — and are not
deduplicated. -/
def extract_structured_data (t : List Char) : List (String × List (List Char)) :=
  let emails := (findall emailRE t).map Prod.fst
  let phones := (findall phoneRE t).map Prod.snd
  let dates := (findall dateRE t).map Prod.fst
  let currency := (findall currencyRE t).map Prod.fst
  (if emails ≠ [] then [("emails", nubFirst emails)] else []) ++
  (if phones ≠ [] then [("phone_numbers", phones.map (List.intercalate ['-']))] else []) ++
  (if dates ≠ [] then [("dates", nubFirst dates)] else []) ++
  (if currency ≠ [] then [("currency_amounts", nubFirst currency)] else [])

/-- Stable insertion of a (word, count) pair into a descending-by-count
list: the new pair goes after every pair with a greater-or-equal count.
Used to model Python `sorted(..., key=lambda x: x[1], reverse=True)`,
which is a stable descending sort. -/
def insDesc (x : List Char × Nat) : List (List Char × Nat) → List (List Char × Nat)
  | [] => [x]
  | y :: ys => if y.2 ≤ x.2 then x :: y :: ys else y :: insDesc x ys

/-- Stable descending-by-count sort (insertion sort): pairs with equal
counts keep their original relative order, as Python `sorted` guarantees. -/
def sortByCountDesc : List (List Char × Nat) → List (List Char × Nat)
  | [] => []
  | x :: xs => insDesc x (sortByCountDesc xs)

/-- Stop-word set of `TextCleaner.extract_keywords`, transcribed from the
source. -/
def stop_words : List (List Char) :=
  (["the", "and", "for", "are", "but", "not", "you", "all", "can", "had",
    "her", "was", "one", "our", "out", "day", "get", "has", "him", "his",
    "how", "its", "may", "new", "now", "old", "see", "two", "who", "boy",
    "did", "she", "use", "way", "been", "call", "came", "each", "find",
    "have", "here", "just", "like", "long", "look", "made", "make", "many",
    "more", "most", "move", "much", "must", "name", "need", "only", "over",
    "said", "same", "some", "take", "than", "that", "this", "time", "very",
    "well", "were", "what", "when", "will", "with", "word", "work",
    "your"]).map String.toList

/-- `TextCleaner.extract_keywords` (`src/tools.py`): lowercase, tokenize
with `\b[a-zA-Z]{3,}\b`, drop stop words and tokens of length at most 3,
count frequencies in first-occurrence order, stable-sort descending by
count (Python `sorted(..., reverse=True)` is stable), return the first
`top_n` words. -/
def extract_keywords (t : List Char) (top_n : Nat) : List (List Char) :=
  let ws := (findall wordRE (t.map Char.toLower)).map Prod.fst
  let filtered := ws.filter (fun w => decide (¬ w ∈ stop_words) && decide (3 < w.length))
  let keys := nubFirst filtered
  let sorted := sortByCountDesc ((keys.map (fun w => (w, filtered.count w))))
  (sorted.take top_n).map Prod.fst

/-- JSON-like values appearing in the analysis dictionaries of
`src/agents.py`: strings, arrays, and objects (insertion-ordered, as
Python dicts). -/
inductive JVal where
  | s : List Char → JVal
  | arr : List JVal → JVal
  | obj : List (String × JVal) → JVal

/-- String value. -/
def jstr (x : String) : JVal :=
  JVal.s x.toList

/-- Array of string values. -/
def jarr (xs : List String) : JVal :=
  JVal.arr (xs.map jstr)

/-- Line-content class `[^\n\r]` of the patient-detail patterns. -/
def lineCh (c : Char) : Bool :=
  c != '\n' && c != '\r'

/-- Class `[:\s]` of the patient-detail patterns. -/
def colWs (c : Char) : Bool :=
  c = ':' || isPySpace c

/-- Pattern `name` of `_create_structured_medical_analysis`
(`src/agents.py`): `Name[:\s]*([^\n\r]+)`, case-insensitive. -/
def nameRE : RE :=
  RE.cat [ciLit "name", RE.star colWs, RE.group (RE.plus1 lineCh)]

/-- Pattern `age`: `Age[:\s]*(\d+)\s*Years`, case-insensitive. -/
def ageRE : RE :=
  RE.cat [ciLit "age", RE.star colWs, RE.group (RE.plus1 Char.isDigit),
    RE.star isPySpace, ciLit "years"]

/-- Pattern `gender`: `Gender[:\s]*([^\n\r]+)`, case-insensitive. -/
def genderRE : RE :=
  RE.cat [ciLit "gender", RE.star colWs, RE.group (RE.plus1 lineCh)]

/-- Pattern `lab_no`: `Lab No\.?[:\s]*([^\n\r]+)`, case-insensitive. -/
def labNoRE : RE :=
  RE.cat [ciLit "lab no", RE.opt (chLit '.'), RE.star colWs, RE.group (RE.plus1 lineCh)]

/-- Pattern `collected_date`: `Collected[:\s]*([^\n\r]+)`, case-insensitive. -/
def collectedRE : RE :=
  RE.cat [ciLit "collected", RE.star colWs, RE.group (RE.plus1 lineCh)]

/-- Pattern `reported_date`: `Reported[:\s]*([^\n\r]+)`, case-insensitive. -/
def reportedRE : RE :=
  RE.cat [ciLit "reported", RE.star colWs, RE.group (RE.plus1 lineCh)]

/-- The `patterns` dictionary of `_create_structured_medical_analysis`, in
source order. -/
def medPatterns : List (String × RE) :=
  [("name", nameRE), ("age", ageRE), ("gender", genderRE), ("lab_no", labNoRE),
   ("collected_date", collectedRE), ("reported_date", reportedRE)]

/-- The `patient_details` dictionary of the fallback: for each pattern in
order, when `re.search` succeeds the stripped first group is inserted
under the pattern key; fields whose pattern does not match are absent.
Every pattern has its single group on the mandatory path, so a successful
search always carries group 1. -/
def patient_details_of (t : List Char) : List (String × JVal) :=
  medPatterns.filterMap
    (fun kr => (searchGroup1 kr.2 t).map (fun g => (kr.1, JVal.s (strip g))))

/-- `SpecializedAnalysisAgent._create_structured_medical_analysis`
(`src/agents.py`): regex-extracted patient details followed by seven
hard-coded fields. -/
def create_structured_medical_analysis (t : List Char) : List (String × JVal) :=
  [("patient_details", JVal.obj (patient_details_of t)),
   ("test_panels", jarr ["Complete Blood Count", "Liver & Kidney Panel",
      "Lipid Profile", "Diabetes Screening", "Thyroid Profile", "Vitamin Levels"]),
   ("key_results", JVal.obj [
      ("CBC", JVal.obj [("Hemoglobin", jstr "15.00 g/dL (Normal)"),
        ("WBC", jstr "8.00 thou/mm³ (Normal)")]),
      ("Liver", JVal.obj [("ALT", jstr "21.0 U/L (Normal)"),
        ("AST", jstr "11.0 U/L (Low)")]),
      ("Kidney", JVal.obj [("Creatinine", jstr "0.90 mg/dL (Normal)"),
        ("eGFR", jstr "118 mL/min/1.73m² (Excellent)")]),
      ("Lipids", JVal.obj [("Cholesterol", jstr "105.00 mg/dL (Excellent)"),
        ("Triglycerides", jstr "130.00 mg/dL (Elevated)")])]),
   ("critical_findings", jarr [
      "Thyroid Hormone Imbalance: T3 elevated and T4 low",
      "Slightly Low Bilirubin: May indicate mild liver function variation",
      "Borderline Triglycerides: Slightly above optimal range"]),
   ("interpretations", jarr [
      "Complete Blood Count: All parameters within normal ranges",
      "Liver Function: Excellent liver health with slightly low AST",
      "Kidney Function: Optimal performance with excellent GFR",
      "Lipid Profile: Generally good with minor triglyceride elevation",
      "Diabetes Screening: Normal glucose metabolism",
      "Thyroid Function: Requires clinical correlation - abnormal pattern",
      "Vitamin Levels: B12 and D levels within sufficient ranges"]),
   ("recommendations", jarr [
      "Immediate Consultation: Endocrinologist review for thyroid hormone imbalance",
      "Dietary Modifications: Reduce saturated fats to address elevated triglycerides",
      "Liver Function Monitoring: Repeat liver enzymes in 3 months",
      "Thyroid Follow-up: Complete thyroid panel with Free T3, Free T4, and antibodies",
      "Lifestyle Maintenance: Continue current healthy practices",
      "Vitamin Maintenance: Current levels adequate - maintain balanced nutrition"]),
   ("summary", jstr ("Comprehensive medical laboratory report showing generally excellent health with minor areas requiring attention. Overall metabolic markers are good, but thyroid function requires specialist evaluation.")),
   ("disclaimer", jstr ("This analysis is for informational purposes only and should not replace professional medical advice, diagnosis, or treatment. All findings must be clinically correlated by a qualified healthcare provider."))]

/-- The eight required fields of `analyze_medical_report`, in source
order. -/
def requiredFields : List String :=
  ["patient_details", "test_panels", "key_results", "critical_findings",
   "interpretations", "recommendations", "summary", "disclaimer"]

/-- The loop of `analyze_medical_report` that inserts a default (`[]`, or
`""` for `summary`) for each required field missing from the parsed model
response; a Python dict assignment appends new keys at the end. -/
def fillRequired (r : List (String × JVal)) : List (String × JVal) :=
  requiredFields.foldl
    (fun acc f =>
      if (acc.lookup f).isSome then acc
      else acc ++ [(f, if f = "summary" then JVal.s [] else JVal.arr [])])
    r

/-- The model-backed path of
`SpecializedAnalysisAgent.analyze_medical_report` (`src/agents.py`) as an
`Except` computation: `api` is the chat-completion call returning the
response content (`none` models a null content, an `error` any transport
or API failure), `parse` is `json.loads` (an `error` models a parse
failure, or a non-dict result that makes the field-insertion loop raise).
Falsy (`None` or empty) content raises, then the parsed dictionary is
completed with the required fields. -/
def medicalModelPath (api : Except String (Option (List Char)))
    (parse : List Char → Except String (List (String × JVal))) :
    Except String (List (String × JVal)) := do
  let content ← api
  match content with
  | none => Except.error "Empty response from API"
  | some c =>
    if c = [] then Except.error "Empty response from API"
    else do
      let result ← parse c
      pure (fillRequired result)

/-- `SpecializedAnalysisAgent.analyze_medical_report`: the model-backed
path inside `try`, with every exception routed to the regex fallback on
the same input text. -/
def analyze_medical_report (text : List Char)
    (api : Except String (Option (List Char)))
    (parse : List Char → Except String (List (String × JVal))) :
    List (String × JVal) :=
  match medicalModelPath api parse with
  | Except.ok r => r
  | Except.error _ => create_structured_medical_analysis text

/-- Task configuration record of `src/task.py`: name, description, and the
two prompt templates (the user template holds a `{text}` placeholder). -/
structure TaskConfig where
  name : String
  description : String
  system_prompt : String
  user_prompt : String
deriving DecidableEq, Repr

/-- `TaskManager._get_general_task` (`src/task.py`). -/
def get_general_task : TaskConfig :=
  { name := "general"
    description := "General purpose document analysis and summarization"
    system_prompt :=
      "You are an expert document analyst. Your task is to analyze documents " ++
      "and provide comprehensive insights, summaries, and structured information. " ++
      "Always respond with valid JSON format."
    user_prompt :=
      "Analyze the following document and provide a comprehensive analysis. " ++
      "Respond with a JSON object containing:\n" ++
      "- \x27document_type\x27: The type of document (e.g., report, letter, manual)\n" ++
      "- \x27summary\x27: A concise summary of the main content (2-3 sentences)\n" ++
      "- \x27key_insights\x27: Array of 3-5 most important insights or findings\n" ++
      "- \x27main_topics\x27: Array of primary topics discussed\n" ++
      "- \x27structured_data\x27: Object with any structured information found\n" ++
      "- \x27recommendations\x27: Array of actionable recommendations (if applicable)\n" ++
      "- \x27confidence_score\x27: Your confidence in the analysis (0-1)\n\n" ++
      "Document text:\n{text}" }

/-- `TaskManager._get_summary_task` (`src/task.py`). -/
def get_summary_task : TaskConfig :=
  { name := "summary"
    description := "Focused document summarization with key points extraction"
    system_prompt :=
      "You are an expert at creating concise, accurate summaries of documents. " ++
      "Focus on extracting the most important information and presenting it clearly. " ++
      "Always respond with valid JSON format."
    user_prompt :=
      "Create a comprehensive summary of the following document. " ++
      "Respond with a JSON object containing:\n" ++
      "- \x27executive_summary\x27: A brief 1-2 sentence overview\n" ++
      "- \x27detailed_summary\x27: A more comprehensive 3-4 paragraph summary\n" ++
      "- \x27key_points\x27: Array of the most important points (5-7 items)\n" ++
      "- \x27supporting_details\x27: Object with supporting information for key points\n" ++
      "- \x27conclusion\x27: Main conclusion or outcome from the document\n" ++
      "- \x27word_count_original\x27: Estimated word count of original\n" ++
      "- \x27compression_ratio\x27: Ratio of summary to original length\n\n" ++
      "Document text:\n{text}" }

/-- `TaskManager._get_medical_task` (`src/task.py`). -/
def get_medical_task : TaskConfig :=
  { name := "medical"
    description := "Specialized analysis for medical reports and health documents"
    system_prompt :=
      "You are a senior medical analyst with expertise in clinical pathology. " ++
      "Analyze medical laboratory reports with extreme attention to detail. " ++
      "Extract ALL patient information, test results, reference ranges, and flags. " ++
      "Provide comprehensive clinical insights and specific recommendations. " ++
      "Always respond with valid JSON format containing detailed structured data. " ++
      "IMPORTANT: Always include a top-level field \x27analysis_type\x27 with value \x27medical\x27."
    user_prompt :=
      "Comprehensively analyze this medical laboratory report. " ++
      "Respond with a detailed JSON object containing:\n" ++
      "- \x27analysis_type\x27: always set this to \x27medical\x27\n" ++
      "- \x27patient_details\x27: dict with all available patient demographics\n" ++
      "- \x27test_panels\x27: array of all test categories performed\n" ++
      "- \x27key_results\x27: detailed dict of test categories with actual values\n" ++
      "- \x27critical_findings\x27: array of any abnormal or concerning results\n" ++
      "- \x27interpretations\x27: array of clinical insights for each test category\n" ++
      "- \x27recommendations\x27: array of specific medical recommendations\n" ++
      "- \x27summary\x27: comprehensive summary of overall health status\n" ++
      "- \x27disclaimer\x27: appropriate medical disclaimer\n\n" ++
      "Focus on accuracy and clinical relevance. Include actual values and reference ranges.\n\n" ++
      "Medical report text:\n{text}" }

/-- `TaskManager._get_invoice_task` (`src/task.py`). -/
def get_invoice_task : TaskConfig :=
  { name := "invoice"
    description := "Specialized analysis for invoices, bills, and financial documents"
    system_prompt :=
      "You are a financial document analysis expert. Extract and organize " ++
      "information from invoices, bills, receipts, and financial statements. " ++
      "Focus on accuracy and completeness of financial data extraction. " ++
      "Always respond with valid JSON format."
    user_prompt :=
      "Analyze this financial document and extract all relevant information. " ++
      "Respond with a JSON object containing:\n" ++
      "- \x27document_type\x27: Type of financial document (invoice, receipt, bill, etc.)\n" ++
      "- \x27vendor_information\x27: Company/vendor details (name, address, contact)\n" ++
      "- \x27customer_information\x27: Customer/client details\n" ++
      "- \x27document_numbers\x27: Invoice number, PO number, reference numbers\n" ++
      "- \x27dates\x27: Invoice date, due date, service dates\n" ++
      "- \x27line_items\x27: Detailed breakdown of items/services with quantities and prices\n" ++
      "- \x27financial_summary\x27: Subtotal, tax, discounts, total amount\n" ++
      "- \x27payment_terms\x27: Payment terms and conditions\n" ++
      "- \x27currency\x27: Currency used in the document\n" ++
      "- \x27tax_information\x27: Tax rates, tax amounts, tax IDs\n" ++
      "- \x27potential_issues\x27: Any discrepancies or issues found\n" ++
      "- \x27verification_status\x27: Assessment of document completeness\n\n" ++
      "Financial document text:\n{text}" }

/-- `TaskManager._get_research_task` (`src/task.py`). -/
def get_research_task : TaskConfig :=
  { name := "research"
    description := "Specialized analysis for research papers and academic documents"
    system_prompt :=
      "You are an academic research analysis expert. Analyze research papers, " ++
      "academic articles, and scholarly documents to extract key research " ++
      "components and evaluate research quality. Always respond with valid JSON format."
    user_prompt :=
      "Analyze this research document and extract key academic information. " ++
      "Respond with a JSON object containing:\n" ++
      "- \x27document_type\x27: Type of academic document (research paper, thesis, etc.)\n" ++
      "- \x27title\x27: Document title\n" ++
      "- \x27authors\x27: List of authors and affiliations\n" ++
      "- \x27abstract\x27: Abstract or summary section\n" ++
      "- \x27research_field\x27: Field of study or discipline\n" ++
      "- \x27research_question\x27: Main research question or hypothesis\n" ++
      "- \x27methodology\x27: Research methodology and approach\n" ++
      "- \x27key_findings\x27: Main research findings and results\n" ++
      "- \x27conclusions\x27: Primary conclusions drawn\n" ++
      "- \x27contributions\x27: Novel contributions to the field\n" ++
      "- \x27limitations\x27: Study limitations mentioned\n" ++
      "- \x27future_work\x27: Suggested future research directions\n" ++
      "- \x27keywords\x27: Important keywords and terms\n" ++
      "- \x27research_quality\x27: Assessment of research rigor and quality\n" ++
      "- \x27practical_applications\x27: Potential real-world applications\n" ++
      "- \x27citation_potential\x27: Assessment of citation worthiness\n\n" ++
      "Research document text:\n{text}" }

/-- The `tasks` dictionary built by `TaskManager.__init__` (`src/task.py`),
in insertion order.  `TaskManager` exposes no operation that mutates it
after construction. -/
def taskList : List (String × TaskConfig) :=
  [("general", get_general_task), ("summary", get_summary_task),
   ("medical", get_medical_task), ("invoice", get_invoice_task),
   ("research", get_research_task)]

/-- `TaskManager.get_task_config`: the configuration for a known name, a
`ValueError` (modelled as `Except.error` with the formatted message)
otherwise. -/
def get_task_config (task_name : String) : Except String TaskConfig :=
  match taskList.lookup task_name with
  | some c => Except.ok c
  | none => Except.error
      ("Unknown task \x27" ++ task_name ++ "\x27. Available tasks: " ++
       "[\x27general\x27, \x27summary\x27, \x27medical\x27, \x27invoice\x27, \x27research\x27]")

/-- `TaskManager.get_available_tasks`: the task names in insertion
order. -/
def get_available_tasks : List String :=
  taskList.map Prod.fst

/-- Concrete inputs used by the claim witnesses and counterexamples. -/
def phoneText : List Char :=
  ("call 555-123-4567 or (555) 123-4567").toList

/-- The normalized phone string produced for both matches in `phoneText`. -/
def phoneNorm : List Char :=
  ("555-123-4567").toList

/-- Witness text holding duplicate emails, dates and currency amounts. -/
def dedupText : List Char :=
  ("contact a@b.com and a@b.com on 1/2/2020 or 1/2/2020 paying $5 or $5").toList

/-- Witness text for the statistics claims. -/
def hiText : List Char :=
  ("Hi.").toList

/-- The statistics record produced for `hiText`. -/
def hiStats : TextStats :=
  { character_count := 3, word_count := 1, sentence_count := 1,
    paragraph_count := 1, average_words_per_sentence := 1/2,
    reading_time_minutes := 1/200 }

/-- Witness text for the keyword claim. -/
def kwText : List Char :=
  ("hello hello world").toList

/-- Witness token for the keyword claim. -/
def kwHello : List Char :=
  ("hello").toList

/-- Witness text for the medical fallback claims: a report fragment with a
gender label but no name label. -/
def medText : List Char :=
  ("Gender: M\nAge: 45 Years\nCollected: 1/2/2020").toList

/-- Witness input for the idempotence claim. -/
def idemText : List Char :=
  ("  a \n\n\n b\x0c c  ").toList

/-- Whitespace discipline of collapsed text: every whitespace character is
a plain space. -/
def SpTame (l : List Char) : Prop :=
  ∀ c ∈ l, isPySpace c = true → c = ' '

/-- No two adjacent plain spaces. -/
def NoDbl (l : List Char) : Prop :=
  l.Chain' (fun a b => a = ' ' → b ≠ ' ')

theorem lookup_eq_none_of_key_not_mem {β : Type} (l : List (String × β)) (k : String)
    (h : ¬ k ∈ l.map Prod.fst) : l.lookup k = none := by
  induction l with
  | nil => rfl
  | cons kv tl ih =>
    obtain ⟨k1, v⟩ := kv
    simp only [List.map_cons, List.mem_cons, not_or] at h
    have hne : (k == k1) = false := beq_eq_false_iff_ne.mpr h.1
    simp [List.lookup, hne, ih h.2]

theorem mem_of_lookup_eq_some {β : Type} (l : List (String × β)) (k : String) (v : β)
    (h : l.lookup k = some v) : (k, v) ∈ l := by
  induction l with
  | nil => simp [List.lookup] at h
  | cons kv tl ih =>
    obtain ⟨k1, b⟩ := kv
    cases hbeq : (k == k1) with
    | true =>
      have hk : k = k1 := eq_of_beq hbeq
      simp [List.lookup, hbeq] at h
      subst hk h
      exact List.mem_cons_self _ _
    | false =>
      simp only [List.lookup, hbeq] at h
      exact List.mem_cons_of_mem _ (ih h)

theorem spTame_collapseWs (l : List Char) : SpTame (collapseWs l) := by
  induction l with
  | nil => intro c hc; simp [collapseWs] at hc
  | cons a l ih =>
    intro c hc hsp
    by_cases ha : isPySpace a = true
    · simp only [collapseWs, ha, if_pos, pushSpace] at hc
      split at hc
      · exact ih c hc hsp
      · rcases List.mem_cons.mp hc with h | h
        · exact h
        · exact ih c h hsp
    · simp only [collapseWs, ha] at hc
      rcases List.mem_cons.mp hc with h | h
      · subst h; exact absurd hsp ha
      · exact ih c h hsp

theorem noDbl_collapseWs (l : List Char) : NoDbl (collapseWs l) := by
  induction l with
  | nil => simp [collapseWs, NoDbl]
  | cons a l ih =>
    by_cases ha : isPySpace a = true
    · simp only [collapseWs, ha, if_pos, pushSpace]
      split
      · exact ih
      · rename_i hhead
        refine List.chain'_cons'.mpr ⟨?_, ih⟩
        intro b hb _
        intro hb'
        exact hhead (by rw [hb'] at hb; exact hb)
    · simp only [collapseWs, ha, if_neg]
      refine List.chain'_cons'.mpr ⟨?_, ih⟩
      intro b _ hsp
      exact absurd (by rw [hsp]; rfl) ha

theorem collapseWs_eq_self (l : List Char) (h1 : SpTame l) (h2 : NoDbl l) :
    collapseWs l = l := by
  induction l with
  | nil => rfl
  | cons a l ih =>
    have htl : collapseWs l = l := by
      refine ih (fun c hc hsp => h1 c (List.mem_cons_of_mem _ hc) hsp) ?_
      exact (List.chain'_cons'.mp h2).2
    by_cases ha : isPySpace a = true
    · have haSp : a = ' ' := h1 a (List.mem_cons_self _ _) ha
      simp only [collapseWs, ha, if_pos, pushSpace, htl]
      subst haSp
      cases l with
      | nil => simp
      | cons b tl =>
        have hb : b ≠ ' ' := (List.chain'_cons'.mp h2).1 b rfl rfl
        simp [pushSpace, hb]
    · simp [collapseWs, ha, htl]

theorem not_mem_of_spTame (l : List Char) (h : SpTame l) (c : Char)
    (hsp : isPySpace c = true) (hne : c ≠ ' ') : ¬ c ∈ l :=
  fun hc => hne (h c hc hsp)

theorem subBlank_eq_self (l : List Char) (h : ¬ '\n' ∈ l) : subBlank l = l := by
  induction l with
  | nil => simp [subBlank]
  | cons a l ih =>
    have ha : a ≠ '\n' := fun he => h (he ▸ List.mem_cons_self _ _)
    rw [subBlank, if_neg ha, ih (fun hc => h (List.mem_cons_of_mem _ hc))]

theorem pageBreakSub_eq_self (l : List Char) (h : ¬ '\x0c' ∈ l) :
    pageBreakSub l = l := by
  unfold pageBreakSub
  induction l with
  | nil => rfl
  | cons a l ih =>
    have ha : a ≠ '\x0c' := fun he => h (he ▸ List.mem_cons_self _ _)
    simp only [List.map_cons, if_neg ha]
    rw [ih (fun hc => h (List.mem_cons_of_mem _ hc))]

theorem lstrip_sublist (l : List Char) : List.Sublist (lstrip l) l :=
  List.IsSuffix.sublist (List.dropWhile_suffix _)

theorem rstrip_sublist (l : List Char) : List.Sublist (rstrip l) l := by
  have h := List.IsSuffix.sublist (List.dropWhile_suffix (l := l.reverse) isPySpace)
  have h2 := List.Sublist.reverse h
  simpa [rstrip] using h2

theorem strip_sublist (l : List Char) : List.Sublist (strip l) l :=
  (rstrip_sublist (lstrip l)).trans (lstrip_sublist l)

theorem mem_of_mem_strip (l : List Char) (c : Char) (h : c ∈ strip l) : c ∈ l :=
  (strip_sublist l).mem h

theorem lstrip_suffix (l : List Char) : lstrip l <:+ l :=
  List.dropWhile_suffix _

theorem rstrip_isPre (l : List Char) : rstrip l <+: l := by
  obtain ⟨t, ht⟩ := List.dropWhile_suffix (l := l.reverse) isPySpace
  refine ⟨t.reverse, ?_⟩
  have := congrArg List.reverse ht
  simpa [rstrip] using this

theorem strip_isInf (l : List Char) : strip l <:+: l :=
  List.IsInfix.trans (List.IsPrefix.isInfix (rstrip_isPre (lstrip l)))
    (List.IsSuffix.isInfix (lstrip_suffix l))

theorem dropWhile_dropWhile (p : Char → Bool) (l : List Char) :
    (l.dropWhile p).dropWhile p = l.dropWhile p := by
  induction l with
  | nil => rfl
  | cons a l ih =>
    by_cases hp : p a = true
    · simp [List.dropWhile_cons, hp, ih]
    · simp [List.dropWhile_cons, hp]

theorem lstrip_lstrip (l : List Char) : lstrip (lstrip l) = lstrip l :=
  dropWhile_dropWhile _ l

theorem rstrip_rstrip (l : List Char) : rstrip (rstrip l) = rstrip l := by
  unfold rstrip
  rw [List.reverse_reverse, dropWhile_dropWhile]

theorem lstrip_eq_self_of_head (l : List Char)
    (h : ∀ c, l.head? = some c → isPySpace c = false) : lstrip l = l := by
  cases l with
  | nil => rfl
  | cons a l =>
    have := h a rfl
    simp [lstrip, List.dropWhile_cons, this]

theorem lstrip_rstrip_of_lstrip (l : List Char) (h : lstrip l = l) :
    lstrip (rstrip l) = rstrip l := by
  cases l with
  | nil => rfl
  | cons a l =>
    have ha : isPySpace a = false := by
      by_contra hsp
      rw [Bool.not_eq_false] at hsp
      have : lstrip (a :: l) = lstrip l := by simp [lstrip, List.dropWhile_cons, hsp]
      have hlen := congrArg List.length (h.symm.trans this)
      have := (lstrip_sublist l).length_le
      simp only [List.length_cons] at hlen
      omega
    refine lstrip_eq_self_of_head _ ?_
    intro c hc
    cases hr : rstrip (a :: l) with
    | nil => rw [hr] at hc; simp at hc
    | cons b tl =>
      obtain ⟨t, ht⟩ := rstrip_isPre (a :: l)
      rw [hr] at ht hc
      simp only [List.cons_append, List.cons.injEq] at ht
      simp only [List.head?] at hc
      have hb : b = a := ht.1
      have hac : a = c := by rw [hb] at hc; exact (Option.some.injEq _ _).mp hc
      rw [← hac]; exact ha

theorem strip_strip (l : List Char) : strip (strip l) = strip l := by
  unfold strip
  rw [lstrip_rstrip_of_lstrip (lstrip l) (lstrip_lstrip l), rstrip_rstrip]

theorem splitOnNN_of_no_newline : ∀ (l : List Char), ¬ '\n' ∈ l → splitOnNN l = [l]
  | [], _ => rfl
  | [_], _ => rfl
  | c :: d :: rest, h => by
    have hc : c ≠ '\n' := fun he => h (he ▸ List.mem_cons_self _ _)
    have hcond : ¬ (c = '\n' ∧ d = '\n') := fun hx => hc hx.1
    have hd : ¬ '\n' ∈ (d :: rest) := fun hx => h (List.mem_cons_of_mem _ hx)
    simp only [splitOnNN, if_neg hcond]
    rw [splitOnNN_of_no_newline (d :: rest) hd]

theorem nubFirstAux_subset (l : List (List Char)) :
    ∀ seen x, x ∈ nubFirstAux seen l → x ∈ l := by
  induction l with
  | nil => intro seen x hx; simp [nubFirstAux] at hx
  | cons a l ih =>
    intro seen x hx
    rw [nubFirstAux] at hx
    split at hx
    · exact List.mem_cons_of_mem _ (ih seen x hx)
    · rcases List.mem_cons.mp hx with h | h
      · exact h ▸ List.mem_cons_self _ _
      · exact List.mem_cons_of_mem _ (ih _ x h)

theorem nubFirst_subset (l : List (List Char)) : ∀ x ∈ nubFirst l, x ∈ l :=
  fun x hx => nubFirstAux_subset l [] x hx

theorem nubFirstAux_not_mem_seen (l : List (List Char)) :
    ∀ seen x, x ∈ nubFirstAux seen l → ¬ x ∈ seen := by
  induction l with
  | nil => intro seen x hx; simp [nubFirstAux] at hx
  | cons a l ih =>
    intro seen x hx
    rw [nubFirstAux] at hx
    split at hx
    · exact ih seen x hx
    · rcases List.mem_cons.mp hx with h | h
      · subst h; assumption
      · intro hmem
        exact ih _ x h (List.mem_cons_of_mem _ hmem)

theorem nubFirstAux_nodup (l : List (List Char)) :
    ∀ seen, (nubFirstAux seen l).Nodup := by
  induction l with
  | nil => intro seen; simp [nubFirstAux]
  | cons a l ih =>
    intro seen
    rw [nubFirstAux]
    split
    · exact ih seen
    · rw [List.nodup_cons]
      refine ⟨?_, ih _⟩
      intro ha
      exact nubFirstAux_not_mem_seen l _ a ha (List.mem_cons_self _ _)

theorem nubFirst_nodup (l : List (List Char)) : (nubFirst l).Nodup :=
  nubFirstAux_nodup l []

theorem filterMap_keys_subset (F : String × RE → Option (String × JVal))
    (hk : ∀ kr x, F kr = some x → x.1 = kr.1) (tl : List (String × RE)) :
    ∀ k2 ∈ (tl.filterMap F).map Prod.fst, k2 ∈ tl.map Prod.fst := by
  intro k2 hk2
  rw [List.mem_map] at hk2
  obtain ⟨x, hx, hfst⟩ := hk2
  rw [List.mem_filterMap] at hx
  obtain ⟨kr, hkr, hF⟩ := hx
  rw [List.mem_map]
  exact ⟨kr, hkr, by rw [← hfst, hk kr x hF]⟩

theorem lookup_filterMap_isSome (F : String × RE → Option (String × JVal))
    (hk : ∀ kr x, F kr = some x → x.1 = kr.1) :
    ∀ (ps : List (String × RE)) (k : String) (r : RE),
      (ps.map Prod.fst).Nodup → (k, r) ∈ ps →
      (((ps.filterMap F).lookup k).isSome ↔ (F (k, r)).isSome) := by
  intro ps
  induction ps with
  | nil => intro k r _ hm; simp at hm
  | cons kr0 tl ih =>
    intro k r hnd hm
    obtain ⟨k0, r0⟩ := kr0
    rw [List.map_cons, List.nodup_cons] at hnd
    rcases List.mem_cons.mp hm with heq | htl
    · rw [Prod.mk.injEq] at heq
      obtain ⟨rfl, rfl⟩ := heq
      cases hF : F (k, r) with
      | none =>
        rw [List.filterMap_cons_none hF]
        have hnone : (tl.filterMap F).lookup k = none := by
          refine lookup_eq_none_of_key_not_mem _ _ ?_
          intro hmem
          exact hnd.1 (filterMap_keys_subset F hk tl k hmem)
        simp [hnone, hF]
      | some x =>
        rw [List.filterMap_cons_some hF]
        obtain ⟨x1, x2⟩ := x
        have hx1 : x1 = k := hk _ _ hF
        subst hx1
        simp [List.lookup, hF]
    · have hkk : k ≠ k0 := by
        intro he
        subst he
        exact hnd.1 (List.mem_map.mpr ⟨(k, r), htl, rfl⟩)
      have hbeq : (k == k0) = false := beq_eq_false_iff_ne.mpr hkk
      cases hF : F (k0, r0) with
      | none =>
        rw [List.filterMap_cons_none hF]
        exact ih k r hnd.2 htl
      | some x =>
        rw [List.filterMap_cons_some hF]
        obtain ⟨x1, x2⟩ := x
        have hx1 : x1 = k0 := hk _ _ hF
        have hbeq2 : (k == x1) = false := beq_eq_false_iff_ne.mpr (by rw [hx1]; exact hkk)
        simp only [List.lookup, hbeq2]
        exact ih k r hnd.2 htl

theorem hiStats_eval : get_text_statistics hiText = some hiStats := by
  have hw : word_count_of hiText = 1 := by decide
  have hmx : (max (splitSent hiText).length 1 : Nat) = 2 := by decide
  have hsc : sentence_count_of hiText = 1 := by decide
  have hp : paragraph_count_of hiText = 1 := by decide
  have hch : hiText.length = 3 := by decide
  rw [get_text_statistics, if_neg (by decide), hw, hmx, hsc, hp, hch]
  have h1 : ((1 : Nat) : Rat) / ((2 : Nat) : Rat) = 1/2 := by norm_num
  have h2 : ((1 : Nat) : Rat) / 200 = 1/200 := by norm_num
  rw [h1, h2]
  rfl

/-- Claim C7: the Statistics Calculator applied to the empty string returns
an empty record with no fields at all (modelled as `none`), not a record of
zeroed fields. -/
theorem stats_empty_returns_empty_record : get_text_statistics [] = none := by
  rw [get_text_statistics, if_pos rfl]

/-- Claim C4: the Fallback Synthesizer returns a mapping with exactly the
eight fields `patient_details`, `test_panels`, `key_results`,
`critical_findings`, `interpretations`, `recommendations`, `summary`,
`disclaimer`, and the seven fields other than `patient_details` are
identical for any two input texts. -/
theorem medical_fallback_shape (t t1 t2 : List Char) :
    (create_structured_medical_analysis t).map Prod.fst =
      ["patient_details", "test_panels", "key_results", "critical_findings",
       "interpretations", "recommendations", "summary", "disclaimer"] ∧
    (create_structured_medical_analysis t1).filter
        (fun kv => kv.1 ≠ "patient_details") =
      (create_structured_medical_analysis t2).filter
        (fun kv => kv.1 ≠ "patient_details") := by
  exact ⟨rfl, rfl⟩

/-- Claim C10: `get_task_config` succeeds exactly on the five fixed task
names `general`, `summary`, `medical`, `invoice`, `research` and raises
`ValueError` for every other name, and `get_available_tasks` returns
exactly these five names.  The embedded task table is immutable, matching
the absence of any mutating operation on `TaskManager`. -/
theorem taskmanager_fixed_tasks (n : String) :
    (if n ∈ ["general", "summary", "medical", "invoice", "research"]
     then ∃ c, get_task_config n = Except.ok c
     else ∃ msg, get_task_config n = Except.error msg) ∧
    get_available_tasks = ["general", "summary", "medical", "invoice", "research"] := by
  refine ⟨?_, rfl⟩
  by_cases h : n ∈ ["general", "summary", "medical", "invoice", "research"]
  · rw [if_pos h]
    simp only [List.mem_cons, List.not_mem_nil, or_false] at h
    rcases h with rfl | rfl | rfl | rfl | rfl
    · exact ⟨get_general_task, rfl⟩
    · exact ⟨get_summary_task, rfl⟩
    · exact ⟨get_medical_task, rfl⟩
    · exact ⟨get_invoice_task, rfl⟩
    · exact ⟨get_research_task, rfl⟩
  · rw [if_neg h]
    have hkeys : ¬ n ∈ taskList.map Prod.fst := by
      simpa [taskList] using h
    have hnone : taskList.lookup n = none := lookup_eq_none_of_key_not_mem _ _ hkeys
    refine ⟨"Unknown task \x27" ++ n ++ "\x27. Available tasks: " ++
      "[\x27general\x27, \x27summary\x27, \x27medical\x27, \x27invoice\x27, \x27research\x27]", ?_⟩
    rw [get_task_config, hnone]

/-- Claim C3: when the model-backed medical analysis path raises any error
(transport failure, empty response content, or parse failure), the error is
not propagated: `analyze_medical_report` returns the Fallback Synthesizer
output on the same input text. -/
theorem medical_error_falls_back (text : List Char)
    (api : Except String (Option (List Char)))
    (parse : List Char → Except String (List (String × JVal))) (e : String)
    (h : medicalModelPath api parse = Except.error e) :
    analyze_medical_report text api parse =
      create_structured_medical_analysis text := by
  rw [analyze_medical_report, h]

/-- Witness for C3 at a concrete input: an empty response content makes the
model path raise, and the result is exactly the fallback output. -/
theorem medical_error_falls_back_witness :
    medicalModelPath (Except.ok (some [])) (fun _ => Except.ok []) =
      Except.error "Empty response from API" ∧
    analyze_medical_report medText (Except.ok (some [])) (fun _ => Except.ok []) =
      create_structured_medical_analysis medText :=
  ⟨rfl, medical_error_falls_back medText (Except.ok (some []))
    (fun _ => Except.ok []) "Empty response from API" rfl⟩

/-- Counterexample to claim C2 as stated: on the non-empty input `"Hi."`
the code computes `average_words_per_sentence = 1/2`, dividing the word
count 1 by the raw `re.split` length 2 (which counts the trailing empty
segment), while the claimed formula `word_count / max(sentence_count, 1)`
with `sentence_count = 1` (non-empty segments only) gives 1. -/
theorem stats_average_counterexample :
    get_text_statistics hiText = some hiStats ∧
    hiStats.average_words_per_sentence ≠
      (hiStats.word_count : Rat) / ((max hiStats.sentence_count 1 : Nat) : Rat) := by
  refine ⟨hiStats_eval, ?_⟩
  rw [hiStats]
  norm_num

/-- Claim C2 amended: for every non-empty input, the Statistics Calculator
returns `average_words_per_sentence` equal to `word_count` divided by
`max(len(sentences), 1)`, where `len(sentences)` is the length of the raw
`re.split(r"[.!?]+", text)` result, counting empty segments as well. -/
theorem stats_average_raw_split (t : List Char) (st : TextStats)
    (h : get_text_statistics t = some st) :
    st.average_words_per_sentence =
      (st.word_count : Rat) / ((max (splitSent t).length 1 : Nat) : Rat) := by
  rw [get_text_statistics] at h
  split at h
  · exact absurd h (by simp)
  · rw [Option.some.injEq] at h
    subst h
    rfl

/-- Witness for the amended C2 at the concrete input `"Hi."`. -/
theorem stats_average_raw_split_witness :
    hiStats.average_words_per_sentence =
      (hiStats.word_count : Rat) / ((max (splitSent hiText).length 1 : Nat) : Rat) :=
  stats_average_raw_split hiText hiStats hiStats_eval

/-- Claim C5: for every input text and each of the six patient fields, the
Fallback Synthesizer's `patient_details` mapping contains the field's key
if and only if the field's case-insensitive regex finds a match (with its
capture) in the text; a non-matching field is absent entirely. -/
theorem patient_details_key_iff (t : List Char) :
    (((patient_details_of t).lookup "name").isSome ↔ (searchGroup1 nameRE t).isSome) ∧
    (((patient_details_of t).lookup "age").isSome ↔ (searchGroup1 ageRE t).isSome) ∧
    (((patient_details_of t).lookup "gender").isSome ↔ (searchGroup1 genderRE t).isSome) ∧
    (((patient_details_of t).lookup "lab_no").isSome ↔ (searchGroup1 labNoRE t).isSome) ∧
    (((patient_details_of t).lookup "collected_date").isSome ↔
      (searchGroup1 collectedRE t).isSome) ∧
    (((patient_details_of t).lookup "reported_date").isSome ↔
      (searchGroup1 reportedRE t).isSome) := by
  have hk : ∀ (kr : String × RE) (x : String × JVal),
      ((searchGroup1 kr.2 t).map (fun g => (kr.1, JVal.s (strip g)))) = some x →
      x.1 = kr.1 := by
    intro kr x h
    rw [Option.map_eq_some'] at h
    obtain ⟨g, _, hx⟩ := h
    rw [← hx]
  have hnd : (medPatterns.map Prod.fst).Nodup := by decide
  have key := lookup_filterMap_isSome
    (fun kr => (searchGroup1 kr.2 t).map (fun g => (kr.1, JVal.s (strip g)))) hk
    medPatterns
  refine ⟨?_, ?_, ?_, ?_, ?_, ?_⟩
  · simpa [patient_details_of, Option.isSome_map'] using
      key "name" nameRE hnd (List.mem_cons_self _ _)
  · simpa [patient_details_of, Option.isSome_map'] using
      key "age" ageRE hnd (List.mem_cons_of_mem _ (List.mem_cons_self _ _))
  · simpa [patient_details_of, Option.isSome_map'] using
      key "gender" genderRE hnd
        (List.mem_cons_of_mem _ (List.mem_cons_of_mem _ (List.mem_cons_self _ _)))
  · simpa [patient_details_of, Option.isSome_map'] using
      key "lab_no" labNoRE hnd
        (List.mem_cons_of_mem _ (List.mem_cons_of_mem _
          (List.mem_cons_of_mem _ (List.mem_cons_self _ _))))
  · simpa [patient_details_of, Option.isSome_map'] using
      key "collected_date" collectedRE hnd
        (List.mem_cons_of_mem _ (List.mem_cons_of_mem _ (List.mem_cons_of_mem _
          (List.mem_cons_of_mem _ (List.mem_cons_self _ _)))))
  · simpa [patient_details_of, Option.isSome_map'] using
      key "reported_date" reportedRE hnd
        (List.mem_cons_of_mem _ (List.mem_cons_of_mem _ (List.mem_cons_of_mem _
          (List.mem_cons_of_mem _ (List.mem_cons_of_mem _ (List.mem_cons_self _ _))))))

/-- Claim C9: the Text Normalizer output contains no newline (the
whitespace-collapse step has already replaced every newline with a space),
so the subsequent blank-line-collapse step never changes the string, and
the paragraph count of any normalized text is at most 1. -/
theorem clean_text_no_newline (nfkd : List Char → List Char) (x : List Char) :
    (¬ '\n' ∈ clean_text nfkd x) ∧
    subBlank (collapseWs (pageBreakSub (nfkd x))) = collapseWs (pageBreakSub (nfkd x)) ∧
    paragraph_count_of (clean_text nfkd x) ≤ 1 := by
  have hNoNl : ∀ (u : List Char), ¬ '\n' ∈ collapseWs u := fun u =>
    not_mem_of_spTame _ (spTame_collapseWs u) _ (by decide) (by decide)
  have hsub : ∀ (u : List Char), subBlank (collapseWs u) = collapseWs u := fun u =>
    subBlank_eq_self _ (hNoNl u)
  have hClean : ¬ '\n' ∈ clean_text nfkd x := by
    rw [clean_text]
    split
    · simp
    · rw [hsub]
      intro hmem
      exact hNoNl _ (mem_of_mem_strip _ _ hmem)
  refine ⟨hClean, hsub _, ?_⟩
  rw [paragraph_count_of, splitOnNN_of_no_newline _ hClean]
  exact le_trans (List.length_filter_le _ _) (by simp)

/-- Claim C6: the Text Normalizer is idempotent.  The hypothesis is the
Unicode guarantee that NFKD normalization fixes already-cleaned text
(normalization is idempotent, and replacing or removing whitespace keeps a
string normalized); the theorem shows every other pipeline stage fixes the
cleaned output. -/
theorem clean_text_idempotent (nfkd : List Char → List Char)
    (h : ∀ s, nfkd (clean_text nfkd s) = clean_text nfkd s) (x : List Char) :
    clean_text nfkd (clean_text nfkd x) = clean_text nfkd x := by
  have hNoNlC : ∀ (u : List Char), ¬ '\n' ∈ collapseWs u := fun u =>
    not_mem_of_spTame _ (spTame_collapseWs u) _ (by decide) (by decide)
  by_cases hx : clean_text nfkd x = []
  · rw [hx]
    simp [clean_text]
  · have hxne : x ≠ [] := fun hxe => hx (by rw [hxe]; simp [clean_text])
    have hyv : clean_text nfkd x = strip (collapseWs (pageBreakSub (nfkd x))) := by
      rw [clean_text, if_neg hxne, subBlank_eq_self _ (hNoNlC _)]
    have hTame : SpTame (clean_text nfkd x) := by
      rw [hyv]
      intro c hc hsp
      exact spTame_collapseWs _ c (mem_of_mem_strip _ _ hc) hsp
    have hDbl : NoDbl (clean_text nfkd x) := by
      rw [hyv]
      exact List.Chain'.infix (noDbl_collapseWs _) (strip_isInf _)
    have hNoFF : ¬ '\x0c' ∈ clean_text nfkd x := fun hc =>
      (by decide : ¬ ('\x0c' : Char) = ' ') (hTame _ hc (by decide))
    have hNoNl : ¬ '\n' ∈ clean_text nfkd x := fun hc =>
      (by decide : ¬ ('\n' : Char) = ' ') (hTame _ hc (by decide))
    conv_lhs => rw [clean_text]
    rw [if_neg hx, h x, pageBreakSub_eq_self _ hNoFF,
        collapseWs_eq_self _ hTame hDbl, subBlank_eq_self _ hNoNl, hyv, strip_strip]

/-- Witness for C6 with the identity as the (trivially stable) Unicode
normalizer, at a concrete input. -/
theorem clean_text_idempotent_witness :
    clean_text (fun s => s) (clean_text (fun s => s) idemText) =
      clean_text (fun s => s) idemText :=
  clean_text_idempotent (fun s => s) (fun _ => rfl) idemText

theorem mem_insDesc (x y : List Char × Nat) (l : List (List Char × Nat)) :
    y ∈ insDesc x l ↔ y = x ∨ y ∈ l := by
  induction l with
  | nil => simp [insDesc]
  | cons a l ih =>
    rw [insDesc]
    split
    · simp [List.mem_cons]
    · rw [List.mem_cons, ih, List.mem_cons]
      tauto

theorem mem_sortByCountDesc (y : List Char × Nat) (l : List (List Char × Nat)) :
    y ∈ sortByCountDesc l ↔ y ∈ l := by
  induction l with
  | nil => simp [sortByCountDesc]
  | cons a l ih =>
    rw [sortByCountDesc, mem_insDesc, ih, List.mem_cons]

/-- Claim C8: every token returned by the Keyword Extractor has length at
least 4 and is not a stop word, and at most `top_n` tokens are returned. -/
theorem extract_keywords_spec (t : List Char) (n : Nat) :
    (∀ w ∈ extract_keywords t n, 3 < w.length ∧ ¬ w ∈ stop_words) ∧
    (extract_keywords t n).length ≤ n := by
  constructor
  · intro w hw
    simp only [extract_keywords] at hw
    rw [List.mem_map] at hw
    obtain ⟨pr, hpr, hfst⟩ := hw
    have hpr2 := List.take_subset _ _ hpr
    rw [mem_sortByCountDesc, List.mem_map] at hpr2
    obtain ⟨w2, hw2, hpair⟩ := hpr2
    have hww : w2 = w := by rw [← hfst, ← hpair]
    subst hww
    have hwf := nubFirst_subset _ _ hw2
    rw [List.mem_filter] at hwf
    have hcond := hwf.2
    simp only [Bool.and_eq_true, decide_eq_true_eq] at hcond
    exact ⟨hcond.2, hcond.1⟩
  · simp only [extract_keywords, List.length_map, List.length_take]
    exact Nat.min_le_left _ _

/-- Witness for C8: on a concrete text the token `hello` is returned, has
length above 3, is not a stop word, and the result respects the bound 2. -/
theorem extract_keywords_spec_witness :
    (3 < kwHello.length ∧ ¬ kwHello ∈ stop_words) ∧
    (extract_keywords kwText 2).length ≤ 2 :=
  ⟨(extract_keywords_spec kwText 2).1 kwHello (by decide),
   (extract_keywords_spec kwText 2).2⟩

/-- Counterexample to claim C1 as stated: on the input
`call 555-123-4567 or (555) 123-4567` the `phone_numbers` value holds two
entries (both the normalized `555-123-4567`), not exactly one — phone
matches are joined with `-` but never deduplicated. -/
theorem phone_dedup_counterexample :
    (extract_structured_data phoneText).lookup "phone_numbers" =
      some [phoneNorm, phoneNorm] ∧
    ¬ ([phoneNorm, phoneNorm] = [phoneNorm]) :=
  ⟨by decide, by decide⟩

theorem nodup_of_lookup_extract (t : List Char) (k : String) (l : List (List Char))
    (hk : ¬ k = "phone_numbers")
    (h : (extract_structured_data t).lookup k = some l) : l.Nodup := by
  have hmem := mem_of_lookup_eq_some _ _ _ h
  simp only [extract_structured_data] at hmem
  rcases List.mem_append.mp hmem with hm | hcur
  · rcases List.mem_append.mp hm with hm2 | hdat
    · rcases List.mem_append.mp hm2 with hem | hph
      · split at hem
        · rw [List.mem_singleton, Prod.mk.injEq] at hem
          rw [hem.2]
          exact nubFirst_nodup _
        · simp at hem
      · split at hph
        · rw [List.mem_singleton, Prod.mk.injEq] at hph
          exact absurd hph.1 hk
        · simp at hph
    · split at hdat
      · rw [List.mem_singleton, Prod.mk.injEq] at hdat
        rw [hdat.2]
        exact nubFirst_nodup _
      · simp at hdat
  · split at hcur
    · rw [List.mem_singleton, Prod.mk.injEq] at hcur
      rw [hcur.2]
      exact nubFirst_nodup _
    · simp at hcur

/-- Claim C1 amended: emails, dates and currency amounts are deduplicated
within their categories, but phone numbers are not; on the input
`call 555-123-4567 or (555) 123-4567` the `phone_numbers` value holds the
normalized string `555-123-4567` twice. -/
theorem extract_structured_dedup (t : List Char) :
    (∀ l, (extract_structured_data t).lookup "emails" = some l → l.Nodup) ∧
    (∀ l, (extract_structured_data t).lookup "dates" = some l → l.Nodup) ∧
    (∀ l, (extract_structured_data t).lookup "currency_amounts" = some l → l.Nodup) ∧
    (extract_structured_data phoneText).lookup "phone_numbers" =
      some [phoneNorm, phoneNorm] := by
  refine ⟨?_, ?_, ?_, by decide⟩
  · exact fun l h => nodup_of_lookup_extract t "emails" l (by decide) h
  · exact fun l h => nodup_of_lookup_extract t "dates" l (by decide) h
  · exact fun l h => nodup_of_lookup_extract t "currency_amounts" l (by decide) h

/-- Witness for the amended C1 on a concrete text containing duplicate
emails, dates and currency amounts: each surviving category list is
duplicate-free. -/
theorem extract_structured_dedup_witness :
    (extract_structured_data dedupText).lookup "emails" =
      some [("a@b.com").toList] ∧
    (extract_structured_data dedupText).lookup "dates" =
      some [("1/2/2020").toList] ∧
    (extract_structured_data dedupText).lookup "currency_amounts" =
      some [("$5").toList] ∧
    List.Nodup [("a@b.com").toList] ∧
    List.Nodup [("1/2/2020").toList] ∧
    List.Nodup [("$5").toList] :=
  ⟨by decide, by decide, by decide,
   (extract_structured_dedup dedupText).1 _ (by decide),
   (extract_structured_dedup dedupText).2.1 _ (by decide),
   (extract_structured_dedup dedupText).2.2.1 _ (by decide)⟩
